import Mathlib

/-!
Shallow embedding of the PySnake simulation core (`src/snake.py`, classes
`Snake` and `Board`) and proofs checking the natural-language specification
against it.

Conventions of the embedding:
* A Python cell dict `{"x": ..., "y": ...}` becomes the structure `Cell`
  with value equality, exactly as dict equality compares the two keys.
* Directions are the integers the source uses: 1 = North, 2 = East,
  3 = South, 4 = West.
* `random.Random.randint` calls are modelled by an explicit tape of sampled
  pairs (x sample, y sample), one pair per loop iteration of the sampling
  `while True` loops; a sampler returns `none` when the tape is exhausted,
  so every retry loop is total.
* `CollisionError` is raised at three distinct sites (border, tail, enemy
  checks, run in that order by `Snake.move`); the embedding tags the raise
  site with `CollisionKind`.
* Python quirks are embedded as they execute, not as they read:
  `(self._new_direction == 1 or 3)` is `new_direction == 1` or the truthy
  literal `3`, and `enemy == any(self._enemies)` compares a dict with a
  bool, which is always `False` in Python.
-/

structure Cell where
  x : Int
  y : Int
deriving DecidableEq, Repr

inductive CollisionKind where
  | OutOfBounds
  | SelfCollision
  | EnemyCollision
deriving DecidableEq, Repr

/-- Python truthiness of an integer literal: nonzero integers are truthy. -/
def pyTruthy (n : Int) : Bool := n != 0

/-- Python `any(enemies)` on a list of (always nonempty, hence truthy)
cell dicts: true exactly when the list is nonempty. -/
def pyAny (l : List Cell) : Bool := !l.isEmpty

/-- Python comparison of a cell dict with a bool (`enemy == any(...)`):
values of different types, always `False`. -/
def cellEqBool (_ : Cell) (_ : Bool) : Bool := false

namespace Snake

/-- `Snake.start_length` class attribute. -/
def start_length : Nat := 10

end Snake

/-- State of the `Snake` object: grid side, body (head first), current
direction code, the `eating` flag, and the separately stored head dict. -/
structure Snake where
  board_size : Int
  body : List Cell
  direction : Int
  eating : Bool
  head : Cell
deriving DecidableEq, Repr

namespace Snake

/-- `Snake.__init__`: body laid out along `y = 2` with x from 11 down to 2
(`for i in reversed(range(start_length)): body.append({"x": i + 2, "y": 2})`),
direction East (2), `head` a copy of `body[0]`. -/
def mkSnake (board_size : Int) : Snake :=
  let body := (List.range start_length).reverse.map (fun i => ⟨(i : Int) + 2, 2⟩)
  { board_size := board_size
    body := body
    direction := 2
    eating := false
    head := body.headD ⟨0, 0⟩ }

/-- Body after `Snake.grow`'s append: a copy of the current last element is
appended (`self.body.append(self.body[len(self.body) - 1])`). On an empty
body Python would raise `IndexError`; the program never grows an empty body. -/
def grow_body (body : List Cell) : List Cell :=
  match body.getLast? with
  | some tail => body ++ [tail]
  | none => body

/-- `Snake.grow`: sets `eating` and appends a duplicate of the tail. -/
def grow (s : Snake) : Snake :=
  { s with eating := true, body := grow_body s.body }

/-- `Snake.set_head_position`: move the head dict one unit in the current
direction (1: y-1, 2: x+1, 3: y+1, 4: x-1; any other code leaves it). -/
def set_head_position (direction : Int) (head : Cell) : Cell :=
  if direction == 1 then ⟨head.x, head.y - 1⟩
  else if direction == 2 then ⟨head.x + 1, head.y⟩
  else if direction == 3 then ⟨head.x, head.y + 1⟩
  else if direction == 4 then ⟨head.x - 1, head.y⟩
  else head

/-- Condition under which `Snake.check_head_touches_border` raises:
a head coordinate equal to -1 or to `board_size`. -/
def check_head_touches_border (board_size : Int) (head : Cell) : Bool :=
  head.x == -1 || head.y == -1 || head.x == board_size || head.y == board_size

/-- Condition under which `Snake.check_head_touches_tail` raises:
`any(p == self.head for p in self.body)`. -/
def check_head_touches_tail (body : List Cell) (head : Cell) : Bool :=
  body.any (fun p => p == head)

/-- `Snake.head_touches_food`. -/
def head_touches_food (head food : Cell) : Bool := head == food

/-- Condition under which `Snake.check_head_touches_enemy` raises:
`any(e == self.head for e in enemies)`. -/
def check_head_touches_enemy (enemies : List Cell) (head : Cell) : Bool :=
  enemies.any (fun e => e == head)

/-- `Snake.move`: advances the head dict, runs the three checks in source
order (border, tail, enemy; a raise aborts the move with the body intact),
grows if the head reached the food, then shifts: the reversed in-place loop
`body[index] = body[index - 1]` followed by `body[0] = head` makes the new
body `head ::` the old body without its last element. -/
def move (s : Snake) (food : Cell) (enemies : List Cell) :
    Snake × Option CollisionKind :=
  let s := { s with head := set_head_position s.direction s.head }
  if check_head_touches_border s.board_size s.head then
    (s, some .OutOfBounds)
  else if check_head_touches_tail s.body s.head then
    (s, some .SelfCollision)
  else if check_head_touches_enemy enemies s.head then
    (s, some .EnemyCollision)
  else
    let s := if head_touches_food s.head food then s.grow else s
    ({ s with body := s.head :: s.body.dropLast }, none)

end Snake

/-- State of the `Board` object relevant to the simulation core:
pending direction (`_new_direction`), enemies, food, snake, `playing`. -/
structure BoardState where
  new_direction : Int
  enemies : List Cell
  food : Cell
  snake : Snake
  playing : Bool
deriving DecidableEq, Repr

namespace Board

/-- `Board.board_size` class attribute. -/
def board_size : Int := 50

/-- `Board.enemy_forbidden_place`, embedded as it executes:
`(self._new_direction == 1 or 3)` is a disjunction with the truthy literal
3, hence always true, and likewise for `(... == 2 or 4)`;
`enemy == any(self._enemies)` compares a dict with a bool, always false. -/
def enemy_forbidden_place (new_direction : Int) (head food : Cell)
    (enemies : List Cell) (enemy : Cell) : Bool :=
  ((new_direction == 1 || pyTruthy 3) && enemy.y == head.y)
    || ((new_direction == 2 || pyTruthy 4) && enemy.x == head.x)
    || enemy == food
    || cellEqBool enemy (pyAny enemies)

/-- One enemy's relocation loop inside `Board.move_enemies`: sample pairs
from the tape until `enemy_forbidden_place` rejects none; return the placed
cell and the unconsumed tape, or `none` when the tape runs out. -/
def place_enemy (new_direction : Int) (head food : Cell) (enemies : List Cell) :
    List (Int × Int) → Option (Cell × List (Int × Int))
  | [] => none
  | (sx, sy) :: rest =>
    let enemy : Cell := ⟨sx, sy⟩
    if enemy_forbidden_place new_direction head food enemies enemy then
      place_enemy new_direction head food enemies rest
    else
      some (enemy, rest)

/-- The `for enemy in self._enemies` loop of `Board.move_enemies`:
relocate each enemy in turn, threading the tape. `done` holds the already
relocated prefix; the list passed to the forbidden check stands for
`self._enemies` (its content is irrelevant: the check uses it only through
the always-false dict-vs-bool comparison). -/
def move_enemies_aux (new_direction : Int) (head food : Cell) :
    List Cell → List Cell → List (Int × Int) → Option (List Cell × List (Int × Int))
  | done, [], tape => some (done, tape)
  | done, e :: todo, tape =>
    match place_enemy new_direction head food (done ++ e :: todo) tape with
    | some (e', rest) => move_enemies_aux new_direction head food (done ++ [e']) todo rest
    | none => none

/-- `Board.move_enemies`. -/
def move_enemies (new_direction : Int) (head food : Cell) (enemies : List Cell)
    (tape : List (Int × Int)) : Option (List Cell × List (Int × Int)) :=
  move_enemies_aux new_direction head food [] enemies tape

/-- `Board.spread_food`: sample pairs from the tape until the sampled cell
differs from the snake's head (`if self._food != self._snake.head: break`). -/
def spread_food (head : Cell) :
    List (Int × Int) → Option (Cell × List (Int × Int))
  | [] => none
  | (sx, sy) :: rest =>
    let food : Cell := ⟨sx, sy⟩
    if food == head then spread_food head rest
    else some (food, rest)

/-- `Board.init_board` followed by `start`'s `self.playing = True`:
one enemy placeholder at (0, 0), pending direction East, fresh snake,
then `spread_food` and `move_enemies`. The status-bar message and the
timer are I/O collaborators and carry no state modelled here. -/
def start (tape : List (Int × Int)) : Option BoardState :=
  let snake := Snake.mkSnake board_size
  match spread_food snake.head tape with
  | none => none
  | some (food, tape1) =>
    match move_enemies 2 snake.head food [⟨0, 0⟩] tape1 with
    | none => none
    | some (enemies, _) =>
      some { new_direction := 2, enemies := enemies, food := food
             snake := snake, playing := true }

/-- The state change of `Board.paintEvent` (drawing aside): when the snake
ate this tick, spread new food, append an enemy placeholder if the
(post-commit) body length is even, relocate all enemies, clear `eating`. -/
def paintEvent (new_direction : Int) (snake : Snake) (food : Cell)
    (enemies : List Cell) (tape : List (Int × Int)) :
    Option (Snake × Cell × List Cell) :=
  if snake.eating then
    match spread_food snake.head tape with
    | none => none
    | some (food', tape1) =>
      let enemies1 := if snake.body.length % 2 == 0 then enemies ++ [⟨0, 0⟩] else enemies
      match move_enemies new_direction snake.head food' enemies1 tape1 with
      | none => none
      | some (enemies', _) =>
        some ({ snake with eating := false }, food', enemies')
  else
    some (snake, food, enemies)

/-- `Board.timerEvent`: apply the pending direction, move; on a collision
call `stop()` (set `playing := false`, body untouched), otherwise run the
repaint (`update()` → `paintEvent`). Returns the new board state and the
collision kind, if any. -/
def timerEvent (b : BoardState) (tape : List (Int × Int)) :
    Option (BoardState × Option CollisionKind) :=
  let snake0 := { b.snake with direction := b.new_direction }
  match snake0.move b.food b.enemies with
  | (s1, some k) => some ({ b with snake := s1, playing := false }, some k)
  | (s1, none) =>
    match paintEvent b.new_direction s1 b.food b.enemies tape with
    | none => none
    | some (s2, food', enemies') =>
      some ({ b with snake := s2, food := food', enemies := enemies' }, none)

/-- The four direction keys handled by `Board.keyPressEvent`. -/
inductive Key where
  | up
  | right
  | down
  | left
deriving DecidableEq, Repr

/-- Direction code a key requests. -/
def key_dir : Key → Int
  | .up => 1
  | .right => 2
  | .down => 3
  | .left => 4

/-- Opposite of a direction code (junk codes are their own opposite). -/
def opposite (d : Int) : Int :=
  if d == 1 then 3
  else if d == 2 then 4
  else if d == 3 then 1
  else if d == 4 then 2
  else d

/-- `Board.keyPressEvent` restricted to the four direction keys: each sets
the pending direction unless the snake's current direction is the exact
reverse, in which case the press falls through to `return`. -/
def keyPressEvent (b : BoardState) (k : Key) : BoardState :=
  match k with
  | .up => if b.snake.direction != 3 then { b with new_direction := 1 } else b
  | .right => if b.snake.direction != 4 then { b with new_direction := 2 } else b
  | .down => if b.snake.direction != 1 then { b with new_direction := 3 } else b
  | .left => if b.snake.direction != 2 then { b with new_direction := 4 } else b

/-- Board states reachable from `start()` through direction key presses and
non-colliding timer ticks. -/
inductive Reachable : BoardState → Prop where
  | start (tape : List (Int × Int)) (b : BoardState) :
      Board.start tape = some b → Reachable b
  | key (b : BoardState) (k : Key) :
      Reachable b → Reachable (keyPressEvent b k)
  | tick (b b' : BoardState) (tape : List (Int × Int)) :
      Reachable b → b.playing = true → timerEvent b tape = some (b', none) →
      Reachable b'

end Board

/-! ### Helper lemmas about the snake -/

lemma Snake.grow_body_dropLast (body : List Cell) (h : body ≠ []) :
    (Snake.grow_body body).dropLast = body := by
  unfold Snake.grow_body
  cases hl : body.getLast? with
  | none => exact absurd (List.getLast?_eq_none_iff.mp hl) h
  | some t => exact List.dropLast_concat

lemma Snake.mem_grow_body (body : List Cell) (c : Cell)
    (hc : c ∈ Snake.grow_body body) : c ∈ body := by
  unfold Snake.grow_body at hc
  cases hl : body.getLast? with
  | none => rwa [hl] at hc
  | some t =>
    rw [hl] at hc
    rcases List.mem_append.1 hc with h | h
    · exact h
    · simp only [List.mem_singleton] at h
      subst h
      exact List.mem_of_mem_getLast? (by simp [hl])

lemma not_mem_of_any_beq_false {l : List Cell} {a : Cell}
    (h : l.any (fun p => p == a) = false) : a ∉ l := by
  simp only [List.any_eq_false] at h
  intro hm
  simpa using h a hm

/-- Characterization of a successful `Snake.move`. -/
lemma Snake.move_ok (s : Snake) (food : Cell) (enemies : List Cell) (s' : Snake)
    (hmove : s.move food enemies = (s', none)) :
    Snake.check_head_touches_border s.board_size
        (Snake.set_head_position s.direction s.head) = false ∧
    Snake.check_head_touches_tail s.body
        (Snake.set_head_position s.direction s.head) = false ∧
    Snake.check_head_touches_enemy enemies
        (Snake.set_head_position s.direction s.head) = false ∧
    s'.head = Snake.set_head_position s.direction s.head ∧
    s'.board_size = s.board_size ∧
    s'.direction = s.direction ∧
    s'.body = Snake.set_head_position s.direction s.head ::
      (if Snake.head_touches_food (Snake.set_head_position s.direction s.head) food
        then Snake.grow_body s.body else s.body).dropLast ∧
    s'.eating = (if Snake.head_touches_food (Snake.set_head_position s.direction s.head) food
        then true else s.eating) := by
  simp only [Snake.move] at hmove
  split_ifs at hmove with h1 h2 h3 h4
  · simp [Prod.ext_iff] at hmove
  · simp [Prod.ext_iff] at hmove
  · simp [Prod.ext_iff] at hmove
  · rw [Prod.mk.injEq] at hmove
    obtain ⟨hs, -⟩ := hmove
    subst hs
    simp [h1, h2, h3, h4, Snake.grow]
  · rw [Prod.mk.injEq] at hmove
    obtain ⟨hs, -⟩ := hmove
    subst hs
    simp [h1, h2, h3, h4]

/-- A failed `Snake.move` leaves the body untouched and sets no other field
than the head. -/
lemma Snake.move_err (s : Snake) (food : Cell) (enemies : List Cell)
    (s' : Snake) (k : CollisionKind)
    (hmove : s.move food enemies = (s', some k)) :
    s' = { s with head := Snake.set_head_position s.direction s.head } := by
  simp only [Snake.move] at hmove
  split_ifs at hmove <;>
    rw [Prod.mk.injEq] at hmove <;>
    first
      | (obtain ⟨hs, -⟩ := hmove; exact hs.symm)
      | simp at hmove

/-! ### Helper lemmas about placement -/

/-- What `enemy_forbidden_place` computes: because the direction tests
`(== 1 or 3)` and `(== 2 or 4)` are always true and the dict-vs-bool
comparison is always false, the predicate ignores both the direction and
the enemy list. -/
lemma enemy_forbidden_place_eq (d : Int) (head food : Cell) (es : List Cell)
    (e : Cell) :
    Board.enemy_forbidden_place d head food es e
      = (e.y == head.y || e.x == head.x || e == food) := by
  have h3 : pyTruthy 3 = true := rfl
  have h4 : pyTruthy 4 = true := rfl
  simp [Board.enemy_forbidden_place, h3, h4, cellEqBool]

lemma spread_food_ok (head : Cell) :
    ∀ (tape : List (Int × Int)) (f : Cell) (rest : List (Int × Int)),
      Board.spread_food head tape = some (f, rest) → f ≠ head := by
  intro tape
  induction tape with
  | nil => intro f rest h; simp [Board.spread_food] at h
  | cons p t ih =>
    intro f rest h
    obtain ⟨sx, sy⟩ := p
    simp only [Board.spread_food] at h
    split_ifs at h with hc
    · exact ih f rest h
    · rw [Option.some.injEq, Prod.mk.injEq] at h
      obtain ⟨hf, -⟩ := h
      subst hf
      simpa using hc

lemma place_enemy_ok (d : Int) (head food : Cell) (es : List Cell) :
    ∀ (tape : List (Int × Int)) (e : Cell) (rest : List (Int × Int)),
      Board.place_enemy d head food es tape = some (e, rest) →
      e.y ≠ head.y ∧ e.x ≠ head.x ∧ e ≠ food ∧
        (e.x, e.y) ∈ tape ∧ rest.Sublist tape := by
  intro tape
  induction tape with
  | nil => intro e rest h; simp [Board.place_enemy] at h
  | cons p t ih =>
    intro e rest h
    obtain ⟨sx, sy⟩ := p
    simp only [Board.place_enemy] at h
    split_ifs at h with hc
    · obtain ⟨h1, h2, h3, h4, h5⟩ := ih e rest h
      exact ⟨h1, h2, h3, List.mem_cons_of_mem _ h4, h5.trans (List.sublist_cons_self _ _)⟩
    · rw [Option.some.injEq, Prod.mk.injEq] at h
      obtain ⟨he, hr⟩ := h
      subst he
      subst hr
      rw [enemy_forbidden_place_eq] at hc
      simp only [Bool.or_eq_true, not_or, beq_iff_eq] at hc
      push_neg at hc
      exact ⟨hc.1.1, hc.1.2, hc.2, by simp, List.sublist_cons_self _ _⟩

lemma move_enemies_aux_ok (d : Int) (head food : Cell) :
    ∀ (todo done : List Cell) (tape : List (Int × Int)) (es' : List Cell)
      (rest : List (Int × Int)),
      Board.move_enemies_aux d head food done todo tape = some (es', rest) →
      es'.length = done.length + todo.length ∧
        ∀ e ∈ es', e ∈ done ∨
          (e.y ≠ head.y ∧ e.x ≠ head.x ∧ e ≠ food ∧ (e.x, e.y) ∈ tape) := by
  intro todo
  induction todo with
  | nil =>
    intro done tape es' rest h
    simp only [Board.move_enemies_aux, Option.some.injEq, Prod.mk.injEq] at h
    obtain ⟨rfl, -⟩ := h
    exact ⟨by simp, fun e he => Or.inl he⟩
  | cons e0 todo ih =>
    intro done tape es' rest h
    simp only [Board.move_enemies_aux] at h
    cases hp : Board.place_enemy d head food (done ++ e0 :: todo) tape with
    | none => rw [hp] at h; simp at h
    | some pr =>
      obtain ⟨e', tape'⟩ := pr
      rw [hp] at h
      obtain ⟨hlen, hmem⟩ := ih (done ++ [e']) tape' es' rest h
      obtain ⟨h1, h2, h3, h4, h5⟩ := place_enemy_ok d head food _ tape e' tape' hp
      have hl2 : (done ++ [e']).length = done.length + 1 := by simp
      refine ⟨by rw [hlen, hl2, List.length_cons]; omega, fun e he => ?_⟩
      rcases hmem e he with hd | hprop
      · rcases List.mem_append.1 hd with hd | hd
        · exact Or.inl hd
        · simp only [List.mem_singleton] at hd
          subst hd
          exact Or.inr ⟨h1, h2, h3, h4⟩
      · exact Or.inr ⟨hprop.1, hprop.2.1, hprop.2.2.1, h5.subset hprop.2.2.2⟩

lemma move_enemies_ok (d : Int) (head food : Cell) (enemies : List Cell)
    (tape : List (Int × Int)) (es' : List Cell) (rest : List (Int × Int))
    (h : Board.move_enemies d head food enemies tape = some (es', rest)) :
    es'.length = enemies.length ∧
      ∀ e ∈ es', e.y ≠ head.y ∧ e.x ≠ head.x ∧ e ≠ food ∧ (e.x, e.y) ∈ tape := by
  obtain ⟨hlen, hmem⟩ := move_enemies_aux_ok d head food enemies [] tape es' rest h
  refine ⟨by simpa using hlen, fun e he => ?_⟩
  rcases hmem e he with hd | hprop
  · simp at hd
  · exact hprop

/-! ### Helper lemmas about the board step -/

/-- `paintEvent` only ever touches the snake's `eating` flag. -/
lemma paintEvent_snake (d : Int) (s : Snake) (food : Cell) (es : List Cell)
    (tape : List (Int × Int)) (s2 : Snake) (f' : Cell) (es2 : List Cell)
    (h : Board.paintEvent d s food es tape = some (s2, f', es2)) :
    s2.body = s.body ∧ s2.head = s.head ∧ s2.board_size = s.board_size ∧
      s2.direction = s.direction ∧ s2.eating = false := by
  simp only [Board.paintEvent] at h
  split_ifs at h with he hl
  · split at h
    · exact Option.noConfusion h
    · split at h
      · exact Option.noConfusion h
      · simp only [Option.some.injEq, Prod.mk.injEq] at h
        obtain ⟨hs, -⟩ := h
        rw [← hs]
        exact ⟨rfl, rfl, rfl, rfl, rfl⟩
  · split at h
    · exact Option.noConfusion h
    · split at h
      · exact Option.noConfusion h
      · simp only [Option.some.injEq, Prod.mk.injEq] at h
        obtain ⟨hs, -⟩ := h
        rw [← hs]
        exact ⟨rfl, rfl, rfl, rfl, rfl⟩
  · simp only [Option.some.injEq, Prod.mk.injEq] at h
    obtain ⟨hs, -⟩ := h
    rw [← hs]
    exact ⟨rfl, rfl, rfl, rfl, by simpa using he⟩

/-- Enemy count after `paintEvent`: +1 exactly when the snake ate and the
post-commit body length is even. -/
lemma paintEvent_enemies_length (d : Int) (s : Snake) (food : Cell)
    (es : List Cell) (tape : List (Int × Int)) (s2 : Snake) (f' : Cell)
    (es2 : List Cell)
    (h : Board.paintEvent d s food es tape = some (s2, f', es2)) :
    es2.length = if s.eating = true ∧ s.body.length % 2 = 0
      then es.length + 1 else es.length := by
  simp only [Board.paintEvent] at h
  split_ifs at h with he hl
  · split at h
    · exact Option.noConfusion h
    · rename_i food1 tape1 heq1
      split at h
      · exact Option.noConfusion h
      · rename_i pr es3 tape2 heq2
        simp only [Option.some.injEq, Prod.mk.injEq] at h
        obtain ⟨-, -, hes⟩ := h
        obtain ⟨hlen, -⟩ := move_enemies_ok d s.head food1 _ tape1 es3 tape2 heq2
        rw [← hes, hlen]
        simp only [beq_iff_eq] at hl
        simp [he, hl]
  · split at h
    · exact Option.noConfusion h
    · rename_i food1 tape1 heq1
      split at h
      · exact Option.noConfusion h
      · rename_i pr es3 tape2 heq2
        simp only [Option.some.injEq, Prod.mk.injEq] at h
        obtain ⟨-, -, hes⟩ := h
        obtain ⟨hlen, -⟩ := move_enemies_ok d s.head food1 _ tape1 es3 tape2 heq2
        rw [← hes, hlen]
        simp only [beq_iff_eq] at hl
        simp [he, hl]
  · simp only [Option.some.injEq, Prod.mk.injEq] at h
    obtain ⟨-, -, hes⟩ := h
    rw [← hes]
    simp only [Bool.not_eq_true] at he
    simp [he]

/-- Characterization of a non-colliding `timerEvent`. -/
lemma timerEvent_ok (b : BoardState) (tape : List (Int × Int)) (b' : BoardState)
    (ht : Board.timerEvent b tape = some (b', none)) :
    ∃ s1, ({ b.snake with direction := b.new_direction } : Snake).move b.food b.enemies
        = (s1, none) ∧
      Board.paintEvent b.new_direction s1 b.food b.enemies tape
        = some (b'.snake, b'.food, b'.enemies) ∧
      b'.new_direction = b.new_direction ∧ b'.playing = b.playing := by
  simp only [Board.timerEvent] at ht
  split at ht
  · rename_i s1 k heq
    simp at ht
  · rename_i s1 heq
    split at ht
    · exact Option.noConfusion ht
    · rename_i pr s2 f' es' heq2
      simp only [Option.some.injEq, Prod.mk.injEq] at ht
      obtain ⟨hb, -⟩ := ht
      rw [← hb]
      exact ⟨s1, heq, heq2, rfl, rfl⟩

/-- Characterization of a colliding `timerEvent`: `stop()` is called and the
snake keeps its body, only the head dict having moved. -/
lemma timerEvent_err (b : BoardState) (tape : List (Int × Int)) (b' : BoardState)
    (k : CollisionKind)
    (ht : Board.timerEvent b tape = some (b', some k)) :
    b' = { b with
      snake := { b.snake with
        direction := b.new_direction
        head := Snake.set_head_position b.new_direction b.snake.head }
      playing := false } := by
  simp only [Board.timerEvent] at ht
  split at ht
  · rename_i s1 k2 heq
    simp only [Option.some.injEq, Prod.mk.injEq] at ht
    obtain ⟨hb, -⟩ := ht
    have hs1 := Snake.move_err _ b.food b.enemies s1 k2 heq
    rw [← hb, hs1]
  · rename_i s1 heq
    split at ht
    · exact Option.noConfusion ht
    · simp at ht

/-- `start` succeeds only with a fresh snake and `playing` set. -/
lemma start_ok (tape : List (Int × Int)) (b : BoardState)
    (h : Board.start tape = some b) :
    b.snake = Snake.mkSnake Board.board_size ∧ b.playing = true := by
  simp only [Board.start] at h
  split at h
  · exact Option.noConfusion h
  · rename_i pf food1 tape1 heq1
    split at h
    · exact Option.noConfusion h
    · rename_i pm es tape2 heq2
      rw [Option.some.injEq] at h
      rw [← h]
      exact ⟨rfl, rfl⟩

/-- A direction key press never touches the snake or the `playing` flag. -/
lemma keyPressEvent_snake (b : BoardState) (k : Board.Key) :
    (Board.keyPressEvent b k).snake = b.snake ∧
      (Board.keyPressEvent b k).playing = b.playing := by
  cases k <;> simp only [Board.keyPressEvent] <;> split_ifs <;> exact ⟨rfl, rfl⟩

/-! ### The reachability invariant -/

/-- Invariant carried by the snake in every reachable board state: the body
is nonempty, starts at the head dict, has pairwise distinct cells inside the
grid, and the stored grid side is the board's. -/
def SnakeInv (s : Snake) : Prop :=
  s.board_size = Board.board_size ∧
  s.body ≠ [] ∧
  s.body.head? = some s.head ∧
  s.body.Nodup ∧
  ∀ c ∈ s.body, 0 ≤ c.x ∧ c.x < s.board_size ∧ 0 ≤ c.y ∧ c.y < s.board_size

lemma mkSnake_inv : SnakeInv (Snake.mkSnake Board.board_size) := by
  constructor
  · rfl
  refine ⟨by decide, by decide, by decide, ?_⟩
  decide

/-- The moved head stays inside the grid: it is one step away from an
in-grid cell and the border check excludes exactly -1 and `board_size`. -/
lemma set_head_in_bounds (d bs : Int) (c : Cell)
    (hx : 0 ≤ c.x ∧ c.x < bs) (hy : 0 ≤ c.y ∧ c.y < bs)
    (hb : Snake.check_head_touches_border bs (Snake.set_head_position d c) = false) :
    0 ≤ (Snake.set_head_position d c).x ∧ (Snake.set_head_position d c).x < bs ∧
      0 ≤ (Snake.set_head_position d c).y ∧ (Snake.set_head_position d c).y < bs := by
  simp only [Snake.check_head_touches_border, Bool.or_eq_false_iff,
    beq_eq_false_iff_ne, ne_eq] at hb
  obtain ⟨⟨⟨h1, h2⟩, h3⟩, h4⟩ := hb
  simp only [Snake.set_head_position] at *
  split_ifs at * <;> simp_all <;> omega

/-- A successful `Snake.move` preserves the snake invariant. -/
lemma move_ok_inv (s : Snake) (food : Cell) (enemies : List Cell) (s1 : Snake)
    (hinv : SnakeInv s) (hmove : s.move food enemies = (s1, none)) :
    SnakeInv s1 := by
  obtain ⟨hbs, hne, hhd, hnd, hbound⟩ := hinv
  obtain ⟨hb, htl, -, hhead, hbs1, -, hbody, -⟩ :=
    Snake.move_ok s food enemies s1 hmove
  have hnotmem : Snake.set_head_position s.direction s.head ∉ s.body :=
    not_mem_of_any_beq_false htl
  have htail_mem : ∀ c ∈ (if Snake.head_touches_food
        (Snake.set_head_position s.direction s.head) food
      then Snake.grow_body s.body else s.body).dropLast, c ∈ s.body := by
    intro c hc
    split_ifs at hc with hf
    · exact Snake.mem_grow_body s.body c ((List.dropLast_sublist _).subset hc)
    · exact (List.dropLast_sublist _).subset hc
  have hhdmem : s.head ∈ s.body := by
    cases hbl : s.body with
    | nil => exact absurd hbl hne
    | cons a t =>
      rw [hbl] at hhd
      simp only [List.head?_cons, Option.some.injEq] at hhd
      rw [← hhd]
      exact List.mem_cons_self a t
  have hheadbound := hbound s.head hhdmem
  have hnewbound := set_head_in_bounds s.direction s.board_size s.head
    ⟨hheadbound.1, hheadbound.2.1⟩ ⟨hheadbound.2.2.1, hheadbound.2.2.2⟩ hb
  refine ⟨by rw [hbs1, hbs], ?_, ?_, ?_, ?_⟩
  · rw [hbody]; exact List.cons_ne_nil _ _
  · rw [hbody, hhead]; rfl
  · rw [hbody]
    refine List.Nodup.cons ?_ ?_
    · intro hc
      exact hnotmem (htail_mem _ hc)
    · split_ifs with hf
      · rw [Snake.grow_body_dropLast s.body hne]
        exact hnd
      · exact hnd.sublist (List.dropLast_sublist _)
  · intro c hc
    rw [hbody] at hc
    rw [hbs1]
    rcases List.mem_cons.1 hc with hc | hc
    · rw [hc]; exact hnewbound
    · exact hbound c (htail_mem c hc)

/-- Every reachable board state satisfies the snake invariant. -/
lemma reachable_inv (b : BoardState) (h : Board.Reachable b) :
    SnakeInv b.snake := by
  induction h with
  | start tape b0 hb =>
    obtain ⟨hs, -⟩ := start_ok tape b0 hb
    rw [hs]
    exact mkSnake_inv
  | key b0 k hb ih =>
    rw [(keyPressEvent_snake b0 k).1]
    exact ih
  | tick b0 b' tape hb hplay ht ih =>
    obtain ⟨s1, hmove, hpaint, -, -⟩ := timerEvent_ok b0 tape b' ht
    have hinv0 : SnakeInv ({ b0.snake with direction := b0.new_direction } : Snake) := by
      obtain ⟨h1, h2, h3, h4, h5⟩ := ih
      exact ⟨h1, h2, h3, h4, h5⟩
    have hinv1 := move_ok_inv _ b0.food b0.enemies s1 hinv0 hmove
    obtain ⟨hb1, hh1, hbs1, -, -⟩ :=
      paintEvent_snake b0.new_direction s1 b0.food b0.enemies tape
        b'.snake b'.food b'.enemies hpaint
    obtain ⟨i1, i2, i3, i4, i5⟩ := hinv1
    refine ⟨by rw [hbs1, i1], by rw [hb1]; exact i2, ?_, by rw [hb1]; exact i4, ?_⟩
    · rw [hb1, hh1]; exact i3
    · intro c hc
      rw [hb1] at hc
      rw [hbs1]
      exact i5 c hc

/-! ### Concrete states used as witnesses -/

/-- Tape for a concrete `start()`: food sampled at (5, 5), the one enemy at
(3, 3). -/
def startTape : List (Int × Int) := [(5, 5), (3, 3)]

/-- Board produced by `start()` on `startTape`. -/
def startBoard : BoardState :=
  { new_direction := 2
    enemies := [⟨3, 3⟩]
    food := ⟨5, 5⟩
    snake := Snake.mkSnake Board.board_size
    playing := true }

/-! ### The claims -/

/-- C1: for every state reachable from `start()` by non-colliding ticks,
while the simulation is running, every cell (x, y) of the actor's body
satisfies `0 <= x < grid_size` and `0 <= y < grid_size`. -/
theorem C1_reachable_body_in_grid (b : BoardState) (hreach : Board.Reachable b)
    (_hrun : b.playing = true) (c : Cell) (hc : c ∈ b.snake.body) :
    0 ≤ c.x ∧ c.x < Board.board_size ∧ 0 ≤ c.y ∧ c.y < Board.board_size := by
  obtain ⟨hbs, -, -, -, hbound⟩ := reachable_inv b hreach
  have hcb := hbound c hc
  rw [hbs] at hcb
  exact hcb

/-- Witness for C1: the head cell of the freshly started board is in the
grid. -/
theorem C1_witness :
    0 ≤ (⟨11, 2⟩ : Cell).x ∧ (⟨11, 2⟩ : Cell).x < Board.board_size ∧
      0 ≤ (⟨11, 2⟩ : Cell).y ∧ (⟨11, 2⟩ : Cell).y < Board.board_size :=
  C1_reachable_body_in_grid startBoard
    (Board.Reachable.start startTape startBoard (by decide))
    (by decide) ⟨11, 2⟩ (by decide)

/-- C2: a tick in which any collision check fails leaves the actor's body
sequence exactly as it was before the tick began. -/
theorem C2_collision_keeps_body (b : BoardState) (tape : List (Int × Int))
    (b' : BoardState) (k : CollisionKind)
    (ht : Board.timerEvent b tape = some (b', some k)) :
    b'.snake.body = b.snake.body := by
  rw [timerEvent_err b tape b' k ht]

/-- Board about to run East into the right border. -/
def c2Board : BoardState :=
  { new_direction := 2
    enemies := [⟨20, 20⟩]
    food := ⟨5, 5⟩
    snake := { board_size := 50, body := [⟨49, 2⟩, ⟨48, 2⟩], direction := 2,
               eating := false, head := ⟨49, 2⟩ }
    playing := true }

/-- `c2Board` after the colliding tick: stopped, head dict moved, body
intact. -/
def c2BoardAfter : BoardState :=
  { new_direction := 2
    enemies := [⟨20, 20⟩]
    food := ⟨5, 5⟩
    snake := { board_size := 50, body := [⟨49, 2⟩, ⟨48, 2⟩], direction := 2,
               eating := false, head := ⟨50, 2⟩ }
    playing := false }

/-- Witness for C2: an out-of-bounds tick keeps the two-cell body. -/
theorem C2_witness : c2BoardAfter.snake.body = c2Board.snake.body :=
  C2_collision_keeps_body c2Board [] c2BoardAfter CollisionKind.OutOfBounds
    (by decide)

/-- C10: in every reachable state the cells of the actor's body are
pairwise distinct. -/
theorem C10_reachable_body_nodup (b : BoardState) (hreach : Board.Reachable b) :
    b.snake.body.Nodup :=
  (reachable_inv b hreach).2.2.2.1

/-- Witness for C10: the freshly started board has pairwise distinct body
cells. -/
theorem C10_witness : startBoard.snake.body.Nodup :=
  C10_reachable_body_nodup startBoard
    (Board.Reachable.start startTape startBoard (by decide))

/-- C3: on a non-colliding tick, reaching the food makes the committed body
the new head followed by the entire pre-tick body (length +1) with the
growth flag cleared by the repaint; otherwise the body length is unchanged.
Either way the length is non-decreasing and grows by at most one. -/
theorem C3_growth_per_tick (b : BoardState) (tape : List (Int × Int))
    (b' : BoardState) (hne : b.snake.body ≠ [])
    (ht : Board.timerEvent b tape = some (b', none)) :
    (Snake.set_head_position b.new_direction b.snake.head = b.food →
      b'.snake.body = b.food :: b.snake.body ∧
      b'.snake.body.length = b.snake.body.length + 1 ∧
      b'.snake.eating = false) ∧
    (Snake.set_head_position b.new_direction b.snake.head ≠ b.food →
      b'.snake.body.length = b.snake.body.length) ∧
    b.snake.body.length ≤ b'.snake.body.length ∧
    b'.snake.body.length ≤ b.snake.body.length + 1 := by
  obtain ⟨s1, hmove, hpaint, -, -⟩ := timerEvent_ok b tape b' ht
  obtain ⟨-, -, -, -, -, -, hbody, -⟩ := Snake.move_ok _ b.food b.enemies s1 hmove
  obtain ⟨hb1, -, -, -, heat⟩ := paintEvent_snake b.new_direction s1 b.food
    b.enemies tape b'.snake b'.food b'.enemies hpaint
  have hbody' : s1.body = Snake.set_head_position b.new_direction b.snake.head ::
      (if Snake.head_touches_food
          (Snake.set_head_position b.new_direction b.snake.head) b.food
        then Snake.grow_body b.snake.body else b.snake.body).dropLast := hbody
  have hgrow : Snake.set_head_position b.new_direction b.snake.head = b.food →
      b'.snake.body = b.food :: b.snake.body ∧
      b'.snake.body.length = b.snake.body.length + 1 ∧
      b'.snake.eating = false := by
    intro hf
    have hft : Snake.head_touches_food
        (Snake.set_head_position b.new_direction b.snake.head) b.food = true := by
      simp [Snake.head_touches_food, hf]
    rw [hb1, hbody', if_pos hft, Snake.grow_body_dropLast b.snake.body hne, hf]
    exact ⟨rfl, by simp, heat⟩
  have hsame : Snake.set_head_position b.new_direction b.snake.head ≠ b.food →
      b'.snake.body.length = b.snake.body.length := by
    intro hf
    have hff : ¬ Snake.head_touches_food
        (Snake.set_head_position b.new_direction b.snake.head) b.food = true := by
      simp [Snake.head_touches_food, hf]
    rw [hb1, hbody', if_neg hff]
    simp only [List.length_cons, List.length_dropLast]
    have hpos : 0 < b.snake.body.length := List.length_pos.mpr hne
    omega
  refine ⟨hgrow, hsame, ?_, ?_⟩ <;>
    by_cases hf : Snake.set_head_position b.new_direction b.snake.head = b.food
  · rw [(hgrow hf).2.1]; omega
  · rw [hsame hf]
  · rw [(hgrow hf).2.1]
  · rw [hsame hf]; omega

/-- Board one step West of its food, with a two-cell body. -/
def c3Board : BoardState :=
  { new_direction := 2
    enemies := [⟨20, 20⟩]
    food := ⟨6, 5⟩
    snake := { board_size := 50, body := [⟨5, 5⟩, ⟨4, 5⟩], direction := 2,
               eating := false, head := ⟨5, 5⟩ }
    playing := true }

/-- Tape for the eating tick from `c3Board`: new food at (9, 9), the enemy
relocated to (30, 30). -/
def c3Tape : List (Int × Int) := [(9, 9), (30, 30)]

/-- `c3Board` after the eating tick. -/
def c3BoardAfter : BoardState :=
  { new_direction := 2
    enemies := [⟨30, 30⟩]
    food := ⟨9, 9⟩
    snake := { board_size := 50, body := [⟨6, 5⟩, ⟨5, 5⟩, ⟨4, 5⟩], direction := 2,
               eating := false, head := ⟨6, 5⟩ }
    playing := true }

/-- Witness for C3: a concrete eating tick grows the body by exactly the
old body prefixed with the food cell. -/
theorem C3_witness :
    (Snake.set_head_position c3Board.new_direction c3Board.snake.head = c3Board.food →
      c3BoardAfter.snake.body = c3Board.food :: c3Board.snake.body ∧
      c3BoardAfter.snake.body.length = c3Board.snake.body.length + 1 ∧
      c3BoardAfter.snake.eating = false) ∧
    (Snake.set_head_position c3Board.new_direction c3Board.snake.head ≠ c3Board.food →
      c3BoardAfter.snake.body.length = c3Board.snake.body.length) ∧
    c3Board.snake.body.length ≤ c3BoardAfter.snake.body.length ∧
    c3BoardAfter.snake.body.length ≤ c3Board.snake.body.length + 1 :=
  C3_growth_per_tick c3Board c3Tape c3BoardAfter (by decide) (by decide)

/-- C4 counterexample: `spread_food` completes after one sample at (2, 2),
a cell of the actor's body (and not its head), so a completed placement can
put the food on the body — the claimed mutual-distinctness invariant fails. -/
theorem C4_counterexample :
    Board.spread_food (Snake.mkSnake Board.board_size).head [(2, 2)]
        = some (⟨2, 2⟩, []) ∧
      (⟨2, 2⟩ : Cell) ∈ (Snake.mkSnake Board.board_size).body ∧
      (⟨2, 2⟩ : Cell) ≠ (Snake.mkSnake Board.board_size).head := by
  decide

/-- C4 amended: completed placements guarantee only that the food differs
from the actor's head (`spread_food`) and that every enemy differs from the
food and from the head in both coordinates (`move_enemies`); food may lie on
non-head body cells or enemies, and enemies may lie on body cells or on each
other. -/
theorem C4_amended_placement :
    (∀ (head : Cell) (tape : List (Int × Int)) (f : Cell)
        (rest : List (Int × Int)),
        Board.spread_food head tape = some (f, rest) → f ≠ head) ∧
    (∀ (d : Int) (head food : Cell) (es : List Cell) (tape : List (Int × Int))
        (es' : List Cell) (rest : List (Int × Int)),
        Board.move_enemies d head food es tape = some (es', rest) →
        ∀ e ∈ es', e ≠ food ∧ e.x ≠ head.x ∧ e.y ≠ head.y) := by
  constructor
  · exact fun head => spread_food_ok head
  · intro d head food es tape es' rest h e he
    obtain ⟨-, hmem⟩ := move_enemies_ok d head food es tape es' rest h
    obtain ⟨hy, hx, hf, -⟩ := hmem e he
    exact ⟨hf, hx, hy⟩

/-- Witness for C4 (amended): a placement that retried once ends away from
the head. -/
theorem C4_witness : (⟨5, 5⟩ : Cell) ≠ (⟨11, 2⟩ : Cell) :=
  C4_amended_placement.1 ⟨11, 2⟩ [(11, 2), (5, 5)] ⟨5, 5⟩ [] (by decide)

/-- The forbidden-place predicate as claim C5 words it: forbidden exactly
when the sample equals the food, or shares the head's y while the direction
is vertical (North/South), or shares the head's x while it is horizontal
(East/West). Written for comparison with the source's
`enemy_forbidden_place`. -/
def enemy_forbidden_place_claim (new_direction : Int) (head food enemy : Cell) :
    Bool :=
  enemy == food
    || ((new_direction == 1 || new_direction == 3) && enemy.y == head.y)
    || ((new_direction == 2 || new_direction == 4) && enemy.x == head.x)

/-- C5 counterexample: with direction East (horizontal) a sample sharing
only the head's y-coordinate should not be forbidden per the claim, but the
code forbids it — the `(direction == 1 or 3)` test is always true. -/
theorem C5_counterexample :
    Board.enemy_forbidden_place 2 ⟨11, 2⟩ ⟨5, 5⟩ [⟨0, 0⟩] ⟨3, 2⟩ = true ∧
      enemy_forbidden_place_claim 2 ⟨11, 2⟩ ⟨5, 5⟩ ⟨3, 2⟩ = false := by
  decide

/-- C5 amended: a sampled cell is forbidden exactly when it equals the food
cell, or shares the head's y-coordinate, or shares the head's x-coordinate —
regardless of the direction, because `(direction == 1 or 3)` and
`(direction == 2 or 4)` are always true, and the comparison with
`any(enemies)` is always false. -/
theorem C5_amended_forbidden (d : Int) (head food : Cell) (es : List Cell)
    (e : Cell) :
    Board.enemy_forbidden_place d head food es e
      = (e.y == head.y || e.x == head.x || e == food) :=
  enemy_forbidden_place_eq d head food es e

/-- C6: starting a tick with the growth flag clear, the enemy count grows by
exactly one when the tick eats the food and the post-commit body length is
even, and never changes otherwise. -/
theorem C6_enemy_spawn (b : BoardState) (tape : List (Int × Int))
    (b' : BoardState) (heat : b.snake.eating = false)
    (ht : Board.timerEvent b tape = some (b', none)) :
    b'.enemies.length =
      if Snake.set_head_position b.new_direction b.snake.head = b.food ∧
          b'.snake.body.length % 2 = 0
      then b.enemies.length + 1 else b.enemies.length := by
  obtain ⟨s1, hmove, hpaint, -, -⟩ := timerEvent_ok b tape b' ht
  obtain ⟨-, -, -, -, -, -, -, heati⟩ := Snake.move_ok _ b.food b.enemies s1 hmove
  obtain ⟨hb1, -, -, -, -⟩ := paintEvent_snake b.new_direction s1 b.food
    b.enemies tape b'.snake b'.food b'.enemies hpaint
  have hlen := paintEvent_enemies_length b.new_direction s1 b.food b.enemies
    tape b'.snake b'.food b'.enemies hpaint
  have heati' : s1.eating = (if Snake.head_touches_food
      (Snake.set_head_position b.new_direction b.snake.head) b.food
      then true else b.snake.eating) := heati
  have heq : s1.eating = true ↔
      Snake.set_head_position b.new_direction b.snake.head = b.food := by
    rw [heati']
    split_ifs with hf
    · simp only [Snake.head_touches_food, beq_iff_eq] at hf
      simp [hf]
    · simp only [Snake.head_touches_food, beq_iff_eq] at hf
      rw [heat]
      simp [hf]
  have hcond : (s1.eating = true ∧ s1.body.length % 2 = 0) ↔
      (Snake.set_head_position b.new_direction b.snake.head = b.food ∧
        b'.snake.body.length % 2 = 0) := by
    rw [hb1]
    exact and_congr heq Iff.rfl
  rw [hlen, if_congr hcond rfl rfl]

/-- Board with an 11-cell body one step West of its food: eating it makes
the post-commit length 12 (even). -/
def c6Board : BoardState :=
  { new_direction := 2
    enemies := [⟨20, 20⟩]
    food := ⟨13, 5⟩
    snake := { board_size := 50
               body := [⟨12, 5⟩, ⟨11, 5⟩, ⟨10, 5⟩, ⟨9, 5⟩, ⟨8, 5⟩, ⟨7, 5⟩,
                        ⟨6, 5⟩, ⟨5, 5⟩, ⟨4, 5⟩, ⟨3, 5⟩, ⟨2, 5⟩]
               direction := 2
               eating := false
               head := ⟨12, 5⟩ }
    playing := true }

/-- Tape for the 11-to-12 eating tick from `c6Board`. -/
def c6Tape : List (Int × Int) := [(9, 9), (30, 30), (31, 31)]

/-- `c6Board` after the 11-to-12 eating tick: one enemy appended and all
enemies relocated. -/
def c6BoardAfter : BoardState :=
  { new_direction := 2
    enemies := [⟨30, 30⟩, ⟨31, 31⟩]
    food := ⟨9, 9⟩
    snake := { board_size := 50
               body := [⟨13, 5⟩, ⟨12, 5⟩, ⟨11, 5⟩, ⟨10, 5⟩, ⟨9, 5⟩, ⟨8, 5⟩,
                        ⟨7, 5⟩, ⟨6, 5⟩, ⟨5, 5⟩, ⟨4, 5⟩, ⟨3, 5⟩, ⟨2, 5⟩]
               direction := 2
               eating := false
               head := ⟨13, 5⟩ }
    playing := true }

/-- Witness for C6: growth from 11 to 12 cells appends exactly one enemy,
giving initial 1 + 1 = 2 enemies. -/
theorem C6_witness :
    c6BoardAfter.enemies.length =
      if Snake.set_head_position c6Board.new_direction c6Board.snake.head
            = c6Board.food ∧
          c6BoardAfter.snake.body.length % 2 = 0
      then c6Board.enemies.length + 1 else c6Board.enemies.length :=
  C6_enemy_spawn c6Board c6Tape c6BoardAfter (by decide) (by decide)

/-- C7: a move fails with exactly one of the three collision kinds, raised
in the fixed order border, self, enemy — a proposed head meeting several
conditions reports the first applicable kind — and with all three checks
clear nothing is fatal. -/
theorem C7_collision_taxonomy (s : Snake) (food : Cell) (enemies : List Cell) :
    (Snake.check_head_touches_border s.board_size
        (Snake.set_head_position s.direction s.head) = true →
      (s.move food enemies).2 = some CollisionKind.OutOfBounds) ∧
    (Snake.check_head_touches_border s.board_size
        (Snake.set_head_position s.direction s.head) = false →
      Snake.check_head_touches_tail s.body
        (Snake.set_head_position s.direction s.head) = true →
      (s.move food enemies).2 = some CollisionKind.SelfCollision) ∧
    (Snake.check_head_touches_border s.board_size
        (Snake.set_head_position s.direction s.head) = false →
      Snake.check_head_touches_tail s.body
        (Snake.set_head_position s.direction s.head) = false →
      Snake.check_head_touches_enemy enemies
        (Snake.set_head_position s.direction s.head) = true →
      (s.move food enemies).2 = some CollisionKind.EnemyCollision) ∧
    (Snake.check_head_touches_border s.board_size
        (Snake.set_head_position s.direction s.head) = false →
      Snake.check_head_touches_tail s.body
        (Snake.set_head_position s.direction s.head) = false →
      Snake.check_head_touches_enemy enemies
        (Snake.set_head_position s.direction s.head) = false →
      (s.move food enemies).2 = none) := by
  refine ⟨fun h1 => ?_, fun h1 h2 => ?_, fun h1 h2 h3 => ?_, fun h1 h2 h3 => ?_⟩
  · simp [Snake.move, h1]
  · simp [Snake.move, h1, h2]
  · simp [Snake.move, h1, h2, h3]
  · simp only [Snake.move, h1, h2, h3]
    split_ifs <;> simp_all

/-- Snake whose next East step at once leaves the grid, hits its own body
and hits an enemy. -/
def c7Snake : Snake :=
  { board_size := 50, body := [⟨49, 2⟩, ⟨50, 2⟩], direction := 2,
    eating := false, head := ⟨49, 2⟩ }

/-- Witness for C7: all three collision conditions hold at once and the
move reports the first kind, `OutOfBounds`. -/
theorem C7_witness :
    Snake.check_head_touches_border c7Snake.board_size
        (Snake.set_head_position c7Snake.direction c7Snake.head) = true ∧
    Snake.check_head_touches_tail c7Snake.body
        (Snake.set_head_position c7Snake.direction c7Snake.head) = true ∧
    Snake.check_head_touches_enemy [⟨50, 2⟩]
        (Snake.set_head_position c7Snake.direction c7Snake.head) = true ∧
    (c7Snake.move ⟨5, 5⟩ [⟨50, 2⟩]).2 = some CollisionKind.OutOfBounds :=
  ⟨by decide, by decide, by decide,
    (C7_collision_taxonomy c7Snake ⟨5, 5⟩ [⟨50, 2⟩]).1 (by decide)⟩

/-- C8: a direction key requesting the exact opposite of the actor's
current direction is a silent no-op (pending direction, snake and all other
state unchanged); any other direction key is accepted as the pending
direction without touching the snake. -/
theorem C8_reversal_noop (b : BoardState) (k : Board.Key) :
    (Board.key_dir k = Board.opposite b.snake.direction →
      Board.keyPressEvent b k = b) ∧
    (Board.key_dir k ≠ Board.opposite b.snake.direction →
      (Board.keyPressEvent b k).new_direction = Board.key_dir k ∧
      (Board.keyPressEvent b k).snake = b.snake) := by
  cases k
  all_goals constructor
  all_goals intro h
  all_goals simp only [Board.key_dir, Board.opposite, beq_iff_eq] at h
  all_goals simp only [Board.keyPressEvent]
  all_goals split_ifs with hc
  all_goals simp only [bne_iff_ne, ne_eq, not_not] at hc
  all_goals try rfl
  all_goals try exact ⟨rfl, rfl⟩
  all_goals exfalso
  all_goals split_ifs at h <;> omega

/-- Witness for C8: with the actor heading East, pressing Left (the exact
opposite) changes nothing at all. -/
theorem C8_witness : Board.keyPressEvent startBoard Board.Key.left = startBoard :=
  (C8_reversal_noop startBoard Board.Key.left).1 (by decide)

/-- C9: whatever the direction, a completed `move_enemies` leaves every
enemy off both of the head's axes, off the food, and with both coordinates
in the `randint(1, board_size - 1)` range; and nothing prevents two enemies
from landing on the same cell, as the concrete run in the second conjunct
shows. -/
theorem C9_relocation_guarantees :
    (∀ (bs d : Int) (head food : Cell) (es : List Cell)
        (tape : List (Int × Int)) (es' : List Cell) (rest : List (Int × Int)),
        (∀ p ∈ tape, 1 ≤ p.1 ∧ p.1 ≤ bs - 1 ∧ 1 ≤ p.2 ∧ p.2 ≤ bs - 1) →
        Board.move_enemies d head food es tape = some (es', rest) →
        ∀ e ∈ es', e.x ≠ head.x ∧ e.y ≠ head.y ∧ e ≠ food ∧
          1 ≤ e.x ∧ e.x ≤ bs - 1 ∧ 1 ≤ e.y ∧ e.y ≤ bs - 1) ∧
    Board.move_enemies 2 ⟨11, 2⟩ ⟨5, 5⟩ [⟨0, 0⟩, ⟨0, 0⟩] [(3, 3), (3, 3)]
      = some ([⟨3, 3⟩, ⟨3, 3⟩], []) := by
  constructor
  · intro bs d head food es tape es' rest hrange h e he
    obtain ⟨-, hmem⟩ := move_enemies_ok d head food es tape es' rest h
    obtain ⟨hy, hx, hf, htp⟩ := hmem e he
    obtain ⟨r1, r2, r3, r4⟩ := hrange (e.x, e.y) htp
    exact ⟨hx, hy, hf, r1, r2, r3, r4⟩
  · decide

/-- Witness for C9: a relocated enemy at (3, 3) avoids head axes, food and
stays in range on the 50-grid. -/
theorem C9_witness :
    (⟨3, 3⟩ : Cell).x ≠ (⟨11, 2⟩ : Cell).x ∧
      (⟨3, 3⟩ : Cell).y ≠ (⟨11, 2⟩ : Cell).y ∧
      (⟨3, 3⟩ : Cell) ≠ (⟨5, 5⟩ : Cell) ∧
      1 ≤ (⟨3, 3⟩ : Cell).x ∧ (⟨3, 3⟩ : Cell).x ≤ 50 - 1 ∧
      1 ≤ (⟨3, 3⟩ : Cell).y ∧ (⟨3, 3⟩ : Cell).y ≤ 50 - 1 :=
  C9_relocation_guarantees.1 50 2 ⟨11, 2⟩ ⟨5, 5⟩ [⟨0, 0⟩] [(3, 3)] [⟨3, 3⟩] []
    (by decide) (by decide) ⟨3, 3⟩ (by decide)
